import Mathlib

/-!
# Verification of the umli vertical-sequencing and lifeline-segmentation core

This development embeds the core of the umli diagram builder in Lean 4 and
proves (or refutes) the specification's claims about it.

Coordinates are modelled by `ℚ` (the source uses `float64`; all arithmetic
performed by the core is additive/comparative, so exact rationals are the
faithful idealisation).

Two groups of definitions appear below:

* embeddings translated directly from the Go sources present in the
  repository snapshot (`diag/creator.go`, `diag/boxstate.go`, the
  `interactions` package, the `frameMaker`), and
* definitions marked `Modelled from the spec:` for components of this
  repository whose defining source file is absent from the snapshot (the
  `geom.Segment`, `nogozone`, `lifeline.BoxTracker` and
  `lifeline.LifelineSegments.Assemble` modules); only their tests and
  callers are present, so these are written faithfully to the
  specification's §3, §4.1, §4.2 and §4.3.
-/

namespace Umli

/-- Lifelines are identified by the lane `Statement` that declared them; the
Go code keys maps on `*dsl.Statement` pointers.  We model the identity of a
lifeline statement by a natural-number handle. -/
abbrev Lifeline := ℕ

/-- Modelled from the spec: `geom.Segment` (its defining file is absent from
the snapshot; §3: a segment `[start, end)` on the vertical axis). Field names
follow the Go exported names `Start`/`End`. -/
structure Segment where
  Start : ℚ
  End : ℚ
deriving DecidableEq, Repr

/-- Modelled from the spec: `geom.NewSegment`. -/
def NewSegment (s e : ℚ) : Segment := ⟨s, e⟩

/-- Predicate: `x` lies inside the half-open segment `s`. -/
def inSeg (s : Segment) (x : ℚ) : Prop := s.Start ≤ x ∧ x < s.End

instance (s : Segment) (x : ℚ) : Decidable (inSeg s x) := by
  unfold inSeg; infer_instance

/-- Some segment of the list contains `x`. -/
def covers (l : List Segment) (x : ℚ) : Prop := ∃ s ∈ l, inSeg s x

instance (l : List Segment) (x : ℚ) : Decidable (covers l x) := by
  unfold covers; infer_instance

/-- The sort order of §4.3 step 2: by `Start` ascending, ties broken by
`End` ascending. -/
def segLE (a b : Segment) : Prop :=
  a.Start < b.Start ∨ (a.Start = b.Start ∧ a.End ≤ b.End)

instance : DecidableRel segLE := by
  unfold segLE; infer_instance

instance : IsTotal Segment segLE where
  total a b := by
    unfold segLE
    rcases lt_trichotomy a.Start b.Start with h | h | h
    · exact Or.inl (Or.inl h)
    · rcases le_total a.End b.End with h2 | h2
      · exact Or.inl (Or.inr ⟨h, h2⟩)
      · exact Or.inr (Or.inr ⟨h.symm, h2⟩)
    · exact Or.inr (Or.inl h)

instance : IsTrans Segment segLE where
  trans a b c hab hbc := by
    unfold segLE at *
    rcases hab with h1 | ⟨h1, h1'⟩ <;> rcases hbc with h2 | ⟨h2, h2'⟩
    · exact Or.inl (h1.trans h2)
    · exact Or.inl (h2 ▸ h1)
    · exact Or.inl (h1 ▸ h2)
    · exact Or.inr ⟨h1.trans h2, h1'.trans h2'⟩

instance : IsAntisymm Segment segLE where
  antisymm a b hab hba := by
    unfold segLE at *
    rcases hab with h1 | ⟨h1, h1'⟩ <;> rcases hba with h2 | ⟨h2, h2'⟩
    · exact absurd (h1.trans h2) (lt_irrefl _)
    · exact absurd h1 (h2 ▸ lt_irrefl _)
    · exact absurd h2 (h1 ▸ lt_irrefl _)
    · cases a; cases b; simp only at h1 h1' h2'
      simp [h1, le_antisymm h1' h2']

/-- Modelled from the spec: `nogozone.NoGoZone` (its defining file is absent
from the snapshot; §3: a Segment plus the two lane identifiers whose
interaction it represents). -/
structure NoGoZone where
  seg : Segment
  lane1 : Lifeline
  lane2 : Lifeline
deriving DecidableEq, Repr

/-- Modelled from the spec: `nogozone.NewNoGoZone`. -/
def NewNoGoZone (s : Segment) (a b : Lifeline) : NoGoZone := ⟨s, a, b⟩

/-- Modelled from the spec (§3, §4.2): the applicability test for one zone —
the lifeline's index in the declared lane order lies between the indexes of
the zone's two lanes inclusive. -/
def zoneApplicable (z : NoGoZone) (lifeline : Lifeline)
    (allLifelines : List Lifeline) : Bool :=
  let i := allLifelines.indexOf lifeline
  let j := allLifelines.indexOf z.lane1
  let k := allLifelines.indexOf z.lane2
  decide (min j k ≤ i ∧ i ≤ max j k)

/-- Modelled from the spec: `ApplicableTo` of the No-Go Zone Registry (§4.2):
filters registered zones to those whose lane pair's horizontal span includes
this lifeline's index and returns their Segments. -/
def applicableTo (lifeline : Lifeline) (allLifelines : List Lifeline)
    (zones : List NoGoZone) : List Segment :=
  (zones.filter (fun z => zoneApplicable z lifeline allLifelines)).map
    (fun z => z.seg)

/-- Errors raised by the Box Tracker (§4.1, §7: `InvalidBoxState`). -/
inductive BoxErr where
  | invalidState
deriving DecidableEq, Repr

/-- One activity-box extent of the decomposed design's `lifeline.BoxTracker`;
`End = none` means the box is in progress (§3 `ActivityBoxExtent`). -/
structure BoxExtent where
  Start : ℚ
  End : Option ℚ
deriving DecidableEq, Repr

/-- Modelled from the spec: `lifeline.BoxTracker` (its defining file is
absent from the snapshot; §4.1: per-lifeline ordered sequence of activity
box extents). -/
structure BoxTracker where
  boxes : List BoxExtent
deriving DecidableEq, Repr

/-- Modelled from the spec: `lifeline.NewBoxTracker`. -/
def NewBoxTracker : BoxTracker := ⟨[]⟩

/-- Modelled from the spec: `BoxTracker.HasABoxInProgress` (§4.1: true iff
the most recently added extent has no end). -/
def BoxTracker.hasABoxInProgress (t : BoxTracker) : Bool :=
  match t.boxes.getLast? with
  | some b => b.End.isNone
  | none => false

/-- Modelled from the spec: `BoxTracker.AddStartingAt` (§4.1: appends a new
extent with the given start and no end; fails with `InvalidState` if a box is
already in progress). -/
def BoxTracker.addStartingAt (y : ℚ) (t : BoxTracker) :
    Except BoxErr BoxTracker :=
  if t.hasABoxInProgress then .error .invalidState
  else .ok ⟨t.boxes ++ [⟨y, none⟩]⟩

/-- Modelled from the spec: `BoxTracker.TerminateAt` (§4.1: sets `end = y` on
the in-progress extent; fails with `InvalidState` if none is in progress, or
if `y < start` of that extent). -/
def BoxTracker.terminateAt (y : ℚ) (t : BoxTracker) :
    Except BoxErr BoxTracker :=
  match t.boxes.getLast? with
  | none => .error .invalidState
  | some b =>
    if b.End.isSome then .error .invalidState
    else if y < b.Start then .error .invalidState
    else .ok ⟨t.boxes.dropLast ++ [⟨b.Start, some y⟩]⟩

/-- Modelled from the spec: `BoxTracker.Extents` (§4.1: all boxes with
defined ends at call time; in-progress boxes excluded). -/
def BoxTracker.extents (t : BoxTracker) : List Segment :=
  t.boxes.filterMap (fun b => b.End.map (fun e => Segment.mk b.Start e))

/-- Modelled from the spec: §4.3 step 3 — merge overlapping or touching
sorted intervals (`b.start ≤ a.end` merges into `[a.start, max(a.end,
b.end)]`) into a minimal disjoint ordered set. -/
def mergeSegs : List Segment → List Segment
  | [] => []
  | [a] => [a]
  | a :: b :: rest =>
    if b.Start ≤ a.End then mergeSegs (⟨a.Start, max a.End b.End⟩ :: rest)
    else a :: mergeSegs (b :: rest)
termination_by l => l.length

/-- Modelled from the spec: §4.3 step 4 — walk the merged set left to right
from the cursor, emitting a candidate gap before each merged interval and a
final candidate gap up to `bottom`. -/
def gapWalk (cursor bottom : ℚ) : List Segment → List Segment
  | [] => if bottom > cursor then [⟨cursor, bottom⟩] else []
  | m :: rest =>
    (if m.Start > cursor then [⟨cursor, m.Start⟩] else []) ++
      gapWalk m.End bottom rest

/-- Modelled from the spec: §4.3 step 1 — the occupied intervals for one
lifeline: the applicable no-go zones together with that lifeline's closed
activity-box extents. -/
def occupiedFor (lifeline : Lifeline) (allLifelines : List Lifeline)
    (noGoZones : List NoGoZone) (boxes : BoxTracker) : List Segment :=
  applicableTo lifeline allLifelines noGoZones ++ boxes.extents

/-- Modelled from the spec: §4.3 steps 1-3 — the merged occupied intervals. -/
def mergedFor (lifeline : Lifeline) (allLifelines : List Lifeline)
    (noGoZones : List NoGoZone) (boxes : BoxTracker) : List Segment :=
  mergeSegs (List.insertionSort segLE
    (occupiedFor lifeline allLifelines noGoZones boxes))

/-- Modelled from the spec: §4.3 step 4 — the candidate gaps before the
threshold filter is applied. -/
def candidatesFor (lifeline : Lifeline) (top bottom : ℚ)
    (noGoZones : List NoGoZone) (boxes : BoxTracker)
    (allLifelines : List Lifeline) : List Segment :=
  gapWalk top bottom (mergedFor lifeline allLifelines noGoZones boxes)

/-- Modelled from the spec: `LifelineSegments.Assemble` (§4.3; its defining
file is absent from the snapshot — only its tests and callers are present).
Steps 1-6: collect occupied intervals, sort, merge, walk emitting candidate
gaps, discard gaps shorter than `minSegLen`, return the survivors in
ascending order. -/
def Assemble (lifeline : Lifeline) (top bottom minSegLen : ℚ)
    (noGoZones : List NoGoZone) (boxes : BoxTracker)
    (allLifelines : List Lifeline) : List Segment :=
  (candidatesFor lifeline top bottom noGoZones boxes allLifelines).filter
    (fun g => decide (minSegLen ≤ g.End - g.Start))

/-! ## The `interactions` package (embedded from the source in the snapshot) -/

/-- DSL statement keywords (`umli.Life` etc.). -/
inductive Kw where
  | Life | Dash | Full | Self | Stop | Title
deriving DecidableEq, Repr

/-- Go `dsl.Statement`, as consumed by the core (§3). -/
structure Statement where
  Keyword : Kw
  ReferencedLifelines : List Lifeline
  LabelSegments : List String
deriving DecidableEq, Repr

/-- Horizontal justification of a label (`graphics.Justification`). -/
inductive Justification where
  | LeftJ | RightJ | TopJ | BottomJ | CentreJ
deriving DecidableEq, Repr

/-- One graphics primitive recorded by the embedded actions.  The numeric
payloads mirror the arguments the Go code passes to
`Primitives.AddLine` / `RowOfStrings` / `AddFilledPoly`. -/
inductive Prim where
  | line (x1 y1 x2 y2 : ℚ) (dashed : Bool)
  | labelRow (x firstRowY fontHt : ℚ) (hj : Justification) (strs : List String)
  | filledPoly (tipFromX tipToX y arrowLen arrowWidth : ℚ)
deriving DecidableEq, Repr

/-- The X coordinates of a lifeline as provided by `lifeline.Spacing`. -/
structure Coords where
  Centre : ℚ
deriving DecidableEq, Repr

/-- Go `lifeline.Spacing` as consumed by the `interactions.Maker`: a lookup of
lifeline centre lines (which can fail for an unknown lifeline) and the
lifeline pitch. -/
structure Spacer where
  CentreLine : Lifeline → Except String Coords
  LifelinePitch : ℚ

/-- The sizer as consumed via `sizer.Get(name)`: an opaque read-only provider
of named scalars (§6). -/
structure Sizer where
  Get : String → ℚ

/-- Go `interactions.MakerDependencies`: font height, sizer, spacer.  (The boxes
map lives in `MakerState` below because the Go code mutates it.) -/
structure MakerDeps where
  fontHt : ℚ
  sizer : Sizer
  spacer : Spacer

/-- The mutable state threaded through the `interactions.Maker` actions: the
accumulated no-go zones, the per-lifeline box trackers, and the graphics
primitives emitted so far. -/
structure MakerState where
  noGoZones : List NoGoZone
  boxes : Lifeline → BoxTracker
  prims : List Prim

/-- The state a freshly constructed `Maker` starts from (`NewMaker` leaves
`noGoZones` nil and `Primitives` empty). -/
def initialMakerState (boxes : Lifeline → BoxTracker) : MakerState :=
  ⟨[], boxes, []⟩

/-- Modelled from the spec: `NewLabelPosn(fromX, toX).Get()` — the defining
file is absent from the snapshot; it only chooses a label anchor point and
justification from the two centre lines, and no claim depends on its value. -/
def labelPosn (fromX toX : ℚ) : ℚ × Justification :=
  ((fromX + toX) / 2, Justification.CentreJ)

/-- Modelled from the spec: `geom.ShortenLineBy` — the defining file is
absent from the snapshot; it pulls both endpoints of a horizontal line in by
the given amount, and no claim depends on its value. -/
def shortenLineBy (amount fromX toX : ℚ) : ℚ × ℚ :=
  if fromX ≤ toX then (fromX + amount, toX - amount)
  else (fromX - amount, toX + amount)

/-- The result of one dispatched action: the new tidemark and the new state,
or an error that aborts the build (the Go functions return `(-1, err)`). -/
abbrev ActionResult := Except String (ℚ × MakerState)

/-- Go `Maker.LifelineCentres`: the X coordinates of the two lifelines between
which an interaction line travels. -/
def lifelineCentres (deps : MakerDeps) (src dst : Lifeline) :
    Except String (ℚ × ℚ) := do
  let fromCoords ← deps.spacer.CentreLine src
  let toCoords ← deps.spacer.CentreLine dst
  return (fromCoords.Centre, toCoords.Centre)

/-- Go `Maker.interactionLabel`: draws the label rows, advances the tidemark by
the label height plus `InteractionLineTextPadB`, and registers a `NoGoZone`
for the band consumed, tagged with the two lifelines. -/
def interactionLabel (deps : MakerDeps) (st : MakerState) (tidemark : ℚ)
    (s : Statement) : ActionResult :=
  match s.ReferencedLifelines with
  | src :: dst :: _ =>
    match lifelineCentres deps src dst with
    | .error e => .error ("mkr.LifelineCentres: " ++ e)
    | .ok (fromX, toX) =>
      let (labelX, hj) := labelPosn fromX toX
      let prims := st.prims ++
        [Prim.labelRow labelX tidemark deps.fontHt hj s.LabelSegments]
      let newTidemark := tidemark +
        (s.LabelSegments.length : ℚ) * deps.fontHt +
        deps.sizer.Get "InteractionLineTextPadB"
      let zone := NewNoGoZone (NewSegment tidemark newTidemark) src dst
      .ok (newTidemark,
        { st with prims := prims, noGoZones := st.noGoZones ++ [zone] })
  | _ => .error "index out of range"

/-- Go `Maker.selfLabel`: draws the label rows of a self interaction and
advances the tidemark; it registers no `NoGoZone`. -/
def selfLabel (deps : MakerDeps) (st : MakerState) (tidemark : ℚ)
    (s : Statement) : ActionResult :=
  match s.ReferencedLifelines with
  | ll :: _ =>
    match deps.spacer.CentreLine ll with
    | .error e => .error ("spacer.CentreLine: " ++ e)
    | .ok coords =>
      let lineStartX := coords.Centre +
        (1/2) * deps.sizer.Get "ActivityBoxWidth"
      let lineEndX := lineStartX +
        deps.sizer.Get "SelfLoopWidthFactor" * deps.spacer.LifelinePitch
      let labelX := (1/2) * (lineStartX + lineEndX)
      let prims := st.prims ++
        [Prim.labelRow labelX tidemark deps.fontHt Justification.CentreJ
          s.LabelSegments]
      let htOfLabels := (s.LabelSegments.length : ℚ) * deps.fontHt
      let newTidemark := tidemark + htOfLabels +
        deps.sizer.Get "InteractionLineTextPadB"
      .ok (newTidemark, { st with prims := prims })
  | _ => .error "index out of range"

/-- Go `Maker.interactionLine`: draws the horizontal line and its arrow,
advances the tidemark by `InteractionLinePadB`, and registers a `NoGoZone`
for the band consumed, tagged with the two lifelines. -/
def interactionLine (deps : MakerDeps) (st : MakerState) (tidemark : ℚ)
    (s : Statement) : ActionResult :=
  match s.ReferencedLifelines with
  | src :: dst :: _ =>
    match lifelineCentres deps src dst with
    | .error e => .error ("mkr.LifelineCentres: " ++ e)
    | .ok (fromX, toX) =>
      let halfActivityBoxWidth := (1/2) * deps.sizer.Get "ActivityBoxWidth"
      let (fromX, toX) := shortenLineBy halfActivityBoxWidth fromX toX
      let y := tidemark
      let dashed := s.Keyword = Kw.Dash
      let arrowLen := deps.sizer.Get "ArrowLen"
      let arrowWidth := deps.sizer.Get "ArrowWidth"
      let prims := st.prims ++
        [Prim.line fromX y toX y dashed,
         Prim.filledPoly fromX toX y arrowLen arrowWidth]
      let newTidemark := tidemark + deps.sizer.Get "InteractionLinePadB"
      let zone := NewNoGoZone (NewSegment tidemark newTidemark) src dst
      .ok (newTidemark,
        { st with prims := prims, noGoZones := st.noGoZones ++ [zone] })
  | _ => .error "index out of range"

/-- Go `Maker.selfLines`: draws the three sides of a self-interaction loop and
its arrow, and advances the tidemark past the loop; it registers no
`NoGoZone`. -/
def selfLines (deps : MakerDeps) (st : MakerState) (tidemark : ℚ)
    (s : Statement) : ActionResult :=
  match s.ReferencedLifelines with
  | ll :: _ =>
    match deps.spacer.CentreLine ll with
    | .error e => .error ("spacer.CentreLine: " ++ e)
    | .ok coords =>
      let lineStartX := coords.Centre +
        (1/2) * deps.sizer.Get "ActivityBoxWidth"
      let lineEndX := lineStartX +
        deps.sizer.Get "SelfLoopWidthFactor" * deps.spacer.LifelinePitch
      let y := tidemark
      let notDashed := false
      let bottom := y + deps.sizer.Get "SelfLoopHeight"
      let arrowLen := deps.sizer.Get "ArrowLen"
      let arrowWidth := deps.sizer.Get "ArrowWidth"
      let prims := st.prims ++
        [Prim.line lineStartX y lineEndX y notDashed,
         Prim.line lineEndX y lineEndX bottom notDashed,
         Prim.line lineEndX bottom lineStartX bottom notDashed,
         Prim.filledPoly lineEndX lineStartX bottom arrowLen arrowWidth]
      let newTidemark := bottom + deps.sizer.Get "InteractionLinePadB"
      .ok (newTidemark, { st with prims := prims })
  | _ => .error "index out of range"

/-- Go `Maker.startToBox`: start an activity box on the destination lifeline at
the current tidemark unless one is already in progress; the tidemark is
returned unchanged. -/
def startToBox (deps : MakerDeps) (st : MakerState) (tidemark : ℚ)
    (s : Statement) : ActionResult :=
  match s.ReferencedLifelines with
  | _ :: dst :: _ =>
    let tracker := st.boxes dst
    if tracker.hasABoxInProgress then .ok (tidemark, st)
    else
      match tracker.addStartingAt tidemark with
      | .error _ => .error "boxes.AddStartingAt: invalid state"
      | .ok t2 =>
        .ok (tidemark,
          { st with boxes := fun l => if l = dst then t2 else st.boxes l })
  | _ => .error "index out of range"

/-- Go `Maker.startFromBox`: start an activity box on the source lifeline,
backdated by `ActivityBoxVerticalOverlap`, unless one is already in
progress; the tidemark is returned unchanged. -/
def startFromBox (deps : MakerDeps) (st : MakerState) (tidemark : ℚ)
    (s : Statement) : ActionResult :=
  match s.ReferencedLifelines with
  | src :: _ =>
    let tracker := st.boxes src
    if tracker.hasABoxInProgress then .ok (tidemark, st)
    else
      let backTrackToStart := deps.sizer.Get "ActivityBoxVerticalOverlap"
      match tracker.addStartingAt (tidemark - backTrackToStart) with
      | .error _ => .error "boxes.AddStartingAt: invalid state"
      | .ok t2 =>
        .ok (tidemark,
          { st with boxes := fun l => if l = src then t2 else st.boxes l })
  | _ => .error "index out of range"

/-- Go `Maker.endBox`: terminate the in-progress box on the statement's lifeline
at the current tidemark, then advance the tidemark by
`IndividualStoppedBoxPadB`; a `TerminateAt` error is propagated. -/
def endBox (deps : MakerDeps) (st : MakerState) (tidemark : ℚ)
    (s : Statement) : ActionResult :=
  match s.ReferencedLifelines with
  | src :: _ =>
    match (st.boxes src).terminateAt tidemark with
    | .error _ => .error "boxes.TerminateAt: invalid state"
    | .ok t2 =>
      .ok (tidemark + deps.sizer.Get "IndividualStoppedBoxPadB",
        { st with boxes := fun l => if l = src then t2 else st.boxes l })
  | _ => .error "index out of range"

/-- Tags for the seven action functions of the dispatch table. -/
inductive ActionKind where
  | interactionLabel | startToBox | startFromBox | interactionLine
  | selfLabel | selfLines | endBox
deriving DecidableEq, Repr

/-- Dispatch an action tag to its action function. -/
def runAction (k : ActionKind) (deps : MakerDeps) (st : MakerState)
    (tidemark : ℚ) (s : Statement) : ActionResult :=
  match k with
  | .interactionLabel => interactionLabel deps st tidemark s
  | .startToBox => startToBox deps st tidemark s
  | .startFromBox => startFromBox deps st tidemark s
  | .interactionLine => interactionLine deps st tidemark s
  | .selfLabel => selfLabel deps st tidemark s
  | .selfLines => selfLines deps st tidemark s
  | .endBox => endBox deps st tidemark s

/-- The actions appended for one statement by the `switch` in
`ScanInteractionStatements`. -/
def actionsFor (s : Statement) : List (ActionKind × Statement) :=
  match s.Keyword with
  | Kw.Dash => [(.interactionLabel, s), (.startToBox, s),
      (.interactionLine, s)]
  | Kw.Full => [(.interactionLabel, s), (.startFromBox, s),
      (.startToBox, s), (.interactionLine, s)]
  | Kw.Self => [(.selfLabel, s), (.startFromBox, s), (.selfLines, s)]
  | Kw.Stop => [(.endBox, s)]
  | _ => []

/-- The complete action list built by the first loop of
`ScanInteractionStatements`. -/
def buildActions : List Statement → List (ActionKind × Statement)
  | [] => []
  | s :: rest => actionsFor s ++ buildActions rest

/-- The second loop of `ScanInteractionStatements`: `prev` plays the role of
`prevTidemark` and `updated` that of `updatedTidemark` (which starts at its
Go zero value and is what the function finally returns). -/
def scanLoop (deps : MakerDeps) : List (ActionKind × Statement) → ℚ → ℚ →
    MakerState → Except String (ℚ × MakerState)
  | [], _, updated, st => .ok (updated, st)
  | (k, s) :: rest, prev, updated, st =>
    match runAction k deps st prev s with
    | .error e => .error ("actionFn: " ++ e)
    | .ok (u, st2) => scanLoop deps rest u u st2

/-- Go `Maker.ScanInteractionStatements`: builds the dispatch list for the
statements, then executes it threading the tidemark, returning the final
value of `updatedTidemark` together with the final state (whose
`noGoZones` field is what the Go function returns alongside). -/
def ScanInteractionStatements (deps : MakerDeps) (tidemark : ℚ)
    (statements : List Statement) (st : MakerState) :
    Except String (ℚ × MakerState) :=
  scanLoop deps (buildActions statements) tidemark 0 st

/-! ## The older monolithic `diag` package (embedded from the source in the
snapshot: `boxstate.go`, `creator.go` and its `frameMaker`) -/

/-- Go `diag.boxExtent` (`boxstate.go`): the Y coordinates at which a box starts
and ends; a freshly started box carries the placeholder end `-1` and
`inProgress = true`. -/
structure OldBoxExtent where
  Start : ℚ
  End : ℚ
  inProgress : Bool
deriving DecidableEq, Repr

/-- Go `diag.lifelineBoxes` (`boxstate.go`): activity boxes for one lifeline. -/
structure LifelineBoxes where
  boxes : List OldBoxExtent
deriving DecidableEq, Repr

/-- Go `lifelineBoxes.mostRecent`. -/
def LifelineBoxes.mostRecent (llb : LifelineBoxes) : Option OldBoxExtent :=
  llb.boxes.getLast?

/-- Go `lifelineBoxes.inProgress`: true when the most recently started activity
box has not yet been finished (false when none have been added). -/
def LifelineBoxes.inProgress (llb : LifelineBoxes) : Bool :=
  match llb.mostRecent with
  | none => false
  | some b => b.inProgress

/-- Go `lifelineBoxes.startBoxAt`. -/
def LifelineBoxes.startBoxAt (llb : LifelineBoxes) (y : ℚ) : LifelineBoxes :=
  ⟨llb.boxes ++ [⟨y, -1, true⟩]⟩

/-- Go `lifelineBoxes.terminateInProgressBoxAt`: sets the end of the most recent
box and clears its flag; silently does nothing when no box was ever added. -/
def LifelineBoxes.terminateInProgressBoxAt (llb : LifelineBoxes) (y : ℚ) :
    LifelineBoxes :=
  match llb.boxes.getLast? with
  | none => llb
  | some b => ⟨llb.boxes.dropLast ++ [⟨b.Start, y, false⟩]⟩

/-- The number of in-progress extents a tracker holds. -/
def LifelineBoxes.countInProgress (llb : LifelineBoxes) : ℕ :=
  (llb.boxes.filter (fun b => b.inProgress)).length

/-- The slice of the old `diag.Creator` state that its activity-box logic
reads and writes: the tidemark, the per-lifeline box trackers, the rectangles
drawn so far, and the two sizer scalars the finalization uses. -/
structure CreatorState where
  tideMark : ℚ
  activityBoxes : Lifeline → LifelineBoxes
  rects : List (ℚ × ℚ × ℚ × ℚ)
  activityBoxVerticalOverlap : ℚ
  finalizedActivityBoxesPadB : ℚ

/-- Go `Creator.potentiallyStartActivityBox`: if no box is in progress for the
lifeline, start one at `tideMark - behindTidemarkDelta`; otherwise do
nothing. -/
def potentiallyStartActivityBox (c : CreatorState) (lifeline : Lifeline)
    (behindTidemarkDelta : ℚ) : CreatorState :=
  if (c.activityBoxes lifeline).inProgress then c
  else
    let started := (c.activityBoxes lifeline).startBoxAt
      (c.tideMark - behindTidemarkDelta)
    { c with activityBoxes := fun l =>
        if l = lifeline then started else c.activityBoxes l }

/-- Go `Creator.finalizeActivityBox`: skipped when no box is in progress for the
lifeline; otherwise draws the box rectangle, sets the tidemark to the given
bottom and terminates the box there.  (The X coordinates come from the
horizontal geometry, which no claim depends on; the rectangle is recorded
with its top and bottom.) -/
def finalizeActivityBox (c : CreatorState) (lifeline : Lifeline)
    (bottom : ℚ) : CreatorState :=
  if (c.activityBoxes lifeline).inProgress then
    let top := match (c.activityBoxes lifeline).mostRecent with
      | some b => b.Start
      | none => 0
    { c with
      rects := c.rects ++ [(0, top, 0, bottom)],
      tideMark := bottom,
      activityBoxes := fun l =>
        if l = lifeline then
          (c.activityBoxes lifeline).terminateInProgressBoxAt bottom
        else c.activityBoxes l }
  else c

/-- Go `Creator.endBox`: finish the box on the statement's lifeline at the
current tidemark. -/
def endBoxOld (c : CreatorState) (lifeline : Lifeline) : CreatorState :=
  finalizeActivityBox c lifeline c.tideMark

/-- Go `Creator.finalizeActivityBoxes`: close every still-open box at
`tideMark + ActivityBoxVerticalOverlap`, then advance the tidemark below
them. -/
def finalizeActivityBoxes (c : CreatorState) (lifelines : List Lifeline) :
    CreatorState :=
  let bottom := c.tideMark + c.activityBoxVerticalOverlap
  let c2 := lifelines.foldl (fun cc ll => finalizeActivityBox cc ll bottom) c
  { c2 with tideMark := bottom + c.finalizedActivityBoxesPadB }

/-! ### The frame maker (second half of the `interactions`/`diag` source:
`frameMaker.initFrameAndMakeTitleBox`) -/

/-- The slice of the old `Creator` state the frame maker reads and writes:
the parsed statements, the tidemark, the font height, the sizer scalars it
uses, and the emitted primitives (label rows and rectangles). -/
structure FrameState where
  statements : List Statement
  tideMark : ℚ
  fontHeight : ℚ
  frameTitleTextPadT : ℚ
  framePadLR : ℚ
  frameTitleTextPadL : ℚ
  frameTitleTextPadB : ℚ
  frameTitleBoxWidth : ℚ
  frameTitleRectPadB : ℚ
  labelRows : List (ℚ × ℚ × Justification × List String)
  rects : List (ℚ × ℚ × ℚ × ℚ)
deriving DecidableEq, Repr

/-- Go `frameMaker.findTitleSegments`: the label rows of the first `Title`
statement, or the empty list when none is present. -/
def findTitleSegments : List Statement → List String
  | [] => []
  | s :: rest =>
    if s.Keyword = Kw.Title then s.LabelSegments else findTitleSegments rest

/-- Go `Creator.rowOfLabels` as used by the frame maker: records one multi-row
label block anchored at the given point with the given horizontal
justification. -/
def rowOfLabels (c : FrameState) (x firstRowY : ℚ) (hj : Justification)
    (labelSegments : List String) : FrameState :=
  { c with labelRows := c.labelRows ++ [(x, firstRowY, hj, labelSegments)] }

/-- Go `frameMaker.initFrameAndMakeTitleBox`: substitutes the single default
line `"Unknown Title"` when no `Title` statement exists, draws the title
label rows and the enclosing title-box rectangle, and advances the tidemark.
Returns the new state together with the captured `frameTop`. -/
def initFrameAndMakeTitleBox (c : FrameState) : FrameState × ℚ :=
  let titleSegments := findTitleSegments c.statements
  let titleSegments :=
    if titleSegments.length = 0 then ["Unknown Title"] else titleSegments
  let frameTop := c.tideMark
  let c := { c with tideMark := c.tideMark + c.frameTitleTextPadT }
  let topOfTitleTextY := c.tideMark
  let leftOfText := c.framePadLR + c.frameTitleTextPadL
  let c := rowOfLabels c leftOfText topOfTitleTextY Justification.LeftJ
    titleSegments
  let c := { c with tideMark := c.tideMark +
    (titleSegments.length : ℚ) * c.fontHeight + c.frameTitleTextPadB }
  let rightOfFrameTitleBox := c.frameTitleBoxWidth
  let c := { c with rects := c.rects ++
    [(c.framePadLR, frameTop, rightOfFrameTitleBox, c.tideMark)] }
  let c := { c with tideMark := c.tideMark + c.frameTitleRectPadB }
  (c, frameTop)

/-- Well-formed tracker state: only the most recently added box may still be
in progress (the API can produce no other shape: a box must be closed before
another is opened). -/
def wellFormedBoxes (llb : LifelineBoxes) : Prop :=
  ∀ b ∈ llb.boxes.dropLast, b.inProgress = false

instance (llb : LifelineBoxes) : Decidable (wellFormedBoxes llb) := by
  unfold wellFormedBoxes; infer_instance

/-- Projection used to observe the no-go zones a scan produced. -/
def zonesOf (r : Except String (ℚ × MakerState)) : Option (List NoGoZone) :=
  match r with
  | .ok (_, st) => some st.noGoZones
  | .error _ => none

/-! ## Helper lemmas -/

/-- Membership in the assembled output is membership among the candidate
gaps plus passing the minimum-length filter. -/
lemma mem_Assemble_iff (lifeline : Lifeline) (top bottom minSegLen : ℚ)
    (zones : List NoGoZone) (boxes : BoxTracker) (all : List Lifeline)
    (g : Segment) :
    g ∈ Assemble lifeline top bottom minSegLen zones boxes all ↔
      g ∈ candidatesFor lifeline top bottom zones boxes all ∧
        minSegLen ≤ g.End - g.Start := by
  unfold Assemble
  simp [List.mem_filter]

/-- A statement that is neither `Dash`, `Full`, `Self` nor `Stop`
contributes no actions. -/
lemma actionsFor_eq_nil (s : Statement) (h1 : s.Keyword ≠ Kw.Dash)
    (h2 : s.Keyword ≠ Kw.Full) (h3 : s.Keyword ≠ Kw.Self)
    (h4 : s.Keyword ≠ Kw.Stop) : actionsFor s = [] := by
  unfold actionsFor
  cases hk : s.Keyword <;> simp_all

/-- When no statement is actionable, the dispatch list is empty. -/
lemma buildActions_eq_nil (stmts : List Statement)
    (h : ∀ s ∈ stmts, s.Keyword ≠ Kw.Dash ∧ s.Keyword ≠ Kw.Full ∧
      s.Keyword ≠ Kw.Self ∧ s.Keyword ≠ Kw.Stop) :
    buildActions stmts = [] := by
  induction stmts with
  | nil => rfl
  | cons s rest ih =>
    have hs := h s (List.mem_cons_self s rest)
    unfold buildActions
    rw [actionsFor_eq_nil s hs.1 hs.2.1 hs.2.2.1 hs.2.2.2,
      ih (fun t ht => h t (List.mem_cons_of_mem s ht))]
    rfl

/-- When no `Title` statement is present `findTitleSegments` returns the
empty list. -/
lemma findTitleSegments_eq_nil (stmts : List Statement)
    (h : ∀ s ∈ stmts, s.Keyword ≠ Kw.Title) :
    findTitleSegments stmts = [] := by
  induction stmts with
  | nil => rfl
  | cons s rest ih =>
    unfold findTitleSegments
    rw [if_neg (h s (List.mem_cons_self s rest))]
    exact ih (fun t ht => h t (List.mem_cons_of_mem s ht))

/-! ## Claims -/

/-- C7: for every candidate gap produced during `Assemble`, the gap appears
in the returned sequence if and only if its length is at least `minSegLen`;
in particular a gap of length exactly `minSegLen` is kept and any strictly
shorter gap is silently discarded. -/
theorem assemble_keeps_gap_iff_long_enough (lifeline : Lifeline)
    (top bottom minSegLen : ℚ) (zones : List NoGoZone) (boxes : BoxTracker)
    (all : List Lifeline) (g : Segment) :
    g ∈ Assemble lifeline top bottom minSegLen zones boxes all ↔
      g ∈ candidatesFor lifeline top bottom zones boxes all ∧
        minSegLen ≤ g.End - g.Start :=
  mem_Assemble_iff lifeline top bottom minSegLen zones boxes all g

/-- C9: when the statement list contains no `Dash`, `Full`, `Self` or `Stop`
statement, `ScanInteractionStatements` dispatches no action and returns the
Go zero value `0` of its uninitialised result variable — not the input
tidemark — together with the unchanged initial state, whose no-go-zone list
is empty, and no error. -/
theorem scan_with_no_actions_returns_zero_tidemark (deps : MakerDeps)
    (tidemark : ℚ) (stmts : List Statement) (boxes : Lifeline → BoxTracker)
    (h : ∀ s ∈ stmts, s.Keyword ≠ Kw.Dash ∧ s.Keyword ≠ Kw.Full ∧
      s.Keyword ≠ Kw.Self ∧ s.Keyword ≠ Kw.Stop) :
    ScanInteractionStatements deps tidemark stmts
        (initialMakerState boxes) =
      .ok (0, initialMakerState boxes) ∧
    (initialMakerState boxes).noGoZones = [] := by
  constructor
  · unfold ScanInteractionStatements
    rw [buildActions_eq_nil stmts h]
    rfl
  · rfl

/-- C9 witness: a list holding only a `Title` statement dispatches no
action, and the scan returns tidemark `0` even though it was entered with
tidemark `7`. -/
theorem scan_with_no_actions_returns_zero_tidemark_witness :
    ((⟨Kw.Title, [], ["t"]⟩ : Statement).Keyword ≠ Kw.Dash ∧
      (⟨Kw.Title, [], ["t"]⟩ : Statement).Keyword ≠ Kw.Full ∧
      (⟨Kw.Title, [], ["t"]⟩ : Statement).Keyword ≠ Kw.Self ∧
      (⟨Kw.Title, [], ["t"]⟩ : Statement).Keyword ≠ Kw.Stop) ∧
    (ScanInteractionStatements ⟨1, ⟨fun _ => 1⟩, ⟨fun _ => .ok ⟨0⟩, 1⟩⟩ 7
        [⟨Kw.Title, [], ["t"]⟩]
        (initialMakerState (fun _ => NewBoxTracker)) =
      .ok (0, initialMakerState (fun _ => NewBoxTracker)) ∧
      (initialMakerState (fun _ : Lifeline => NewBoxTracker)).noGoZones =
        []) :=
  ⟨by decide,
    scan_with_no_actions_returns_zero_tidemark ⟨1, ⟨fun _ => 1⟩,
      ⟨fun _ => .ok ⟨0⟩, 1⟩⟩ 7 [⟨Kw.Title, [], ["t"]⟩]
      (fun _ => NewBoxTracker) (by decide)⟩

/-- C10: when the statement list contains no `Title` statement, the frame
maker still draws the frame title box (its rectangle is emitted), using the
single default label line `"Unknown Title"` in place of the missing title
text. -/
theorem frame_title_defaults_to_unknown_title (c : FrameState)
    (h : ∀ s ∈ c.statements, s.Keyword ≠ Kw.Title) :
    (initFrameAndMakeTitleBox c).1.labelRows =
      c.labelRows ++ [(c.framePadLR + c.frameTitleTextPadL,
        c.tideMark + c.frameTitleTextPadT, Justification.LeftJ,
        ["Unknown Title"])] ∧
    (initFrameAndMakeTitleBox c).1.rects =
      c.rects ++ [(c.framePadLR, c.tideMark, c.frameTitleBoxWidth,
        c.tideMark + c.frameTitleTextPadT + c.fontHeight +
          c.frameTitleTextPadB)] := by
  unfold initFrameAndMakeTitleBox rowOfLabels
  rw [findTitleSegments_eq_nil c.statements h]
  norm_num

/-- C10 witness: a concrete build whose statements hold a single `Life`
statement and no `Title` statement draws the default title. -/
theorem frame_title_defaults_to_unknown_title_witness :
    (∀ s ∈ [(⟨Kw.Life, [0], ["A"]⟩ : Statement)], s.Keyword ≠ Kw.Title) ∧
    ((initFrameAndMakeTitleBox
        ⟨[⟨Kw.Life, [0], ["A"]⟩], 10, 2, 1, 3, 1, 1, 50, 1, [], []⟩).1.labelRows
        = [] ++ [(3 + 1, 10 + 1, Justification.LeftJ, ["Unknown Title"])] ∧
      (initFrameAndMakeTitleBox
        ⟨[⟨Kw.Life, [0], ["A"]⟩], 10, 2, 1, 3, 1, 1, 50, 1, [], []⟩).1.rects
        = [] ++ [(3, 10, 50, 10 + 1 + 2 + 1)]) :=
  ⟨by decide,
    frame_title_defaults_to_unknown_title
      ⟨[⟨Kw.Life, [0], ["A"]⟩], 10, 2, 1, 3, 1, 1, 50, 1, [], []⟩
      (by decide)⟩

/-- C2: a registered no-go zone contributes its segment to the occupied
intervals used when assembling a lifeline's dashed segments exactly when the
lifeline's index in the declared lane order lies between the indexes of the
zone's two lanes inclusive; and a zone whose two lanes coincide (a
self-interaction pair `(A, A)`) applies only to lane `A` itself. -/
theorem nogozone_applies_iff_index_between (z : NoGoZone)
    (lifeline : Lifeline) (all : List Lifeline) (zones : List NoGoZone)
    (boxes : BoxTracker) :
    (zoneApplicable z lifeline all = true ↔
      min (all.indexOf z.lane1) (all.indexOf z.lane2) ≤
          all.indexOf lifeline ∧
        all.indexOf lifeline ≤
          max (all.indexOf z.lane1) (all.indexOf z.lane2)) ∧
    (z ∈ zones → zoneApplicable z lifeline all = true →
      z.seg ∈ occupiedFor lifeline all zones boxes) ∧
    (∀ seg, seg ∈ applicableTo lifeline all zones →
      ∃ z2 ∈ zones, zoneApplicable z2 lifeline all = true ∧ z2.seg = seg) ∧
    (all.Nodup → lifeline ∈ all → z.lane1 ∈ all → z.lane1 = z.lane2 →
      (zoneApplicable z lifeline all = true ↔ lifeline = z.lane1)) := by
  refine ⟨?_, ?_, ?_, ?_⟩
  · unfold zoneApplicable
    simp
  · intro hz happ
    unfold occupiedFor applicableTo
    refine List.mem_append_left _ ?_
    exact List.mem_map_of_mem _ (List.mem_filter.mpr ⟨hz, happ⟩)
  · intro seg hseg
    unfold applicableTo at hseg
    obtain ⟨z2, hz2, hzeq⟩ := List.mem_map.mp hseg
    exact ⟨z2, (List.mem_filter.mp hz2).1, (List.mem_filter.mp hz2).2, hzeq⟩
  · intro hnd hll h1 heq
    unfold zoneApplicable
    rw [← heq]
    simp only [min_self, max_self, decide_eq_true_eq]
    constructor
    · intro ⟨hle, hge⟩
      have hidx : all.indexOf lifeline = all.indexOf z.lane1 :=
        le_antisymm hge hle
      exact (List.indexOf_inj hll h1).mp hidx
    · intro hEq
      rw [hEq]
      exact ⟨le_refl _, le_refl _⟩

/-- C2 witness: the test scenario of `TestWithJustOneNoGoZoneGap` — a zone
for the outer lanes `(a, c)` applies to the middle lifeline `b`, and a
self-pair zone `(b, b)` applies exactly to `b`. -/
theorem nogozone_applies_iff_index_between_witness :
    (NewNoGoZone (NewSegment 10 50) 0 2) ∈
        [NewNoGoZone (NewSegment 10 50) 0 2] ∧
    (zoneApplicable (NewNoGoZone (NewSegment 10 50) 0 2) 1 [0, 1, 2] =
        true →
      (NewNoGoZone (NewSegment 10 50) 0 2).seg ∈
        occupiedFor 1 [0, 1, 2] [NewNoGoZone (NewSegment 10 50) 0 2]
          NewBoxTracker) ∧
    (zoneApplicable (NewNoGoZone (NewSegment 10 50) 1 1) 1 [0, 1, 2] =
        true ↔ (1 : Lifeline) = 1) :=
  ⟨by decide,
    (nogozone_applies_iff_index_between (NewNoGoZone (NewSegment 10 50) 0 2)
      1 [0, 1, 2] [NewNoGoZone (NewSegment 10 50) 0 2]
      NewBoxTracker).2.1 (by decide),
    (nogozone_applies_iff_index_between (NewNoGoZone (NewSegment 10 50) 1 1)
      1 [0, 1, 2] [] NewBoxTracker).2.2.2 (by decide) (by decide)
      (by decide) rfl⟩

/-- The Box Tracker reports an in-progress box exactly when `TerminateAt`
can find one to close. -/
lemma terminateAt_error_of_not_inProgress (t : BoxTracker) (y : ℚ)
    (h : t.hasABoxInProgress = false) :
    t.terminateAt y = .error .invalidState := by
  unfold BoxTracker.terminateAt
  unfold BoxTracker.hasABoxInProgress at h
  cases hl : t.boxes.getLast? with
  | none => rfl
  | some b =>
    rw [hl] at h
    simp only [Option.isNone_eq_false_iff, Option.isSome_iff_exists] at h
    obtain ⟨e, he⟩ := h
    simp only [he, Option.isSome_some, if_true]

/-- C3: when no activity box is in progress on a lifeline (including a
tracker to which no box was ever added), `TerminateAt` fails with the
`InvalidState` box error rather than succeeding or being silently ignored;
it also fails when the terminating `y` lies above the start of the
in-progress extent; and the `Stop` handling path (`endBox`) propagates the
failure, which aborts the scan. -/
theorem terminate_without_open_box_fails (t : BoxTracker) (y : ℚ)
    (deps : MakerDeps) (st : MakerState) (tm u : ℚ) (s : Statement) :
    (t.hasABoxInProgress = false →
      t.terminateAt y = .error .invalidState) ∧
    (∀ b, t.boxes.getLast? = some b → b.End = none → y < b.Start →
      t.terminateAt y = .error .invalidState) ∧
    (∀ src rest, s.ReferencedLifelines = src :: rest →
      (st.boxes src).hasABoxInProgress = false →
      runAction .endBox deps st tm s =
        .error "boxes.TerminateAt: invalid state") ∧
    (∀ e acts, runAction .endBox deps st tm s = .error e →
      scanLoop deps ((ActionKind.endBox, s) :: acts) tm u st =
        .error ("actionFn: " ++ e)) := by
  refine ⟨terminateAt_error_of_not_inProgress t y, ?_, ?_, ?_⟩
  · intro b hl hend hy
    unfold BoxTracker.terminateAt
    rw [hl]
    simp only [hend, Option.isSome_none, Bool.false_eq_true, if_false,
      if_pos hy]
  · intro src rest hrefs hprog
    unfold runAction endBox
    rw [hrefs]
    simp only
    rw [terminateAt_error_of_not_inProgress (st.boxes src) tm hprog]
  · intro e acts herr
    unfold scanLoop
    rw [herr]

/-- C3 witness: terminating at `5` on a fresh tracker fails, and a `Stop`
statement for a lifeline with no open box aborts the scan loop. -/
theorem terminate_without_open_box_fails_witness :
    (NewBoxTracker.terminateAt 5 = .error .invalidState) ∧
    (runAction .endBox ⟨1, ⟨fun _ => 1⟩, ⟨fun _ => .ok ⟨0⟩, 1⟩⟩
        (initialMakerState (fun _ => NewBoxTracker)) 5
        ⟨Kw.Stop, [0], []⟩ =
      .error "boxes.TerminateAt: invalid state") ∧
    (scanLoop ⟨1, ⟨fun _ => 1⟩, ⟨fun _ => .ok ⟨0⟩, 1⟩⟩
        [(ActionKind.endBox, ⟨Kw.Stop, [0], []⟩)] 5 0
        (initialMakerState (fun _ => NewBoxTracker)) =
      .error ("actionFn: " ++ "boxes.TerminateAt: invalid state")) :=
  ⟨(terminate_without_open_box_fails NewBoxTracker 5
      ⟨1, ⟨fun _ => 1⟩, ⟨fun _ => .ok ⟨0⟩, 1⟩⟩
      (initialMakerState (fun _ => NewBoxTracker)) 5 0
      ⟨Kw.Stop, [0], []⟩).1 rfl,
    (terminate_without_open_box_fails NewBoxTracker 5
      ⟨1, ⟨fun _ => 1⟩, ⟨fun _ => .ok ⟨0⟩, 1⟩⟩
      (initialMakerState (fun _ => NewBoxTracker)) 5 0
      ⟨Kw.Stop, [0], []⟩).2.2.1 0 [] rfl rfl,
    (terminate_without_open_box_fails NewBoxTracker 5
      ⟨1, ⟨fun _ => 1⟩, ⟨fun _ => .ok ⟨0⟩, 1⟩⟩
      (initialMakerState (fun _ => NewBoxTracker)) 5 0
      ⟨Kw.Stop, [0], []⟩).2.2.2 "boxes.TerminateAt: invalid state" []
      ((terminate_without_open_box_fails NewBoxTracker 5
        ⟨1, ⟨fun _ => 1⟩, ⟨fun _ => .ok ⟨0⟩, 1⟩⟩
        (initialMakerState (fun _ => NewBoxTracker)) 5 0
        ⟨Kw.Stop, [0], []⟩).2.2.1 0 [] rfl rfl)⟩

/-- In a well-formed tracker with nothing in progress, every box is closed. -/
lemma all_closed_of_not_inProgress (llb : LifelineBoxes)
    (hwf : wellFormedBoxes llb) (hp : llb.inProgress = false) :
    ∀ b ∈ llb.boxes, b.inProgress = false := by
  intro b hb
  rcases eq_or_ne llb.boxes [] with hnil | hnil
  · rw [hnil] at hb; cases hb
  · rw [← List.dropLast_append_getLast hnil] at hb
    rcases List.mem_append.mp hb with hmem | hmem
    · exact hwf b hmem
    · have hlast : b = llb.boxes.getLast hnil := by
        simpa using hmem
      unfold LifelineBoxes.inProgress LifelineBoxes.mostRecent at hp
      rw [List.getLast?_eq_getLast llb.boxes hnil] at hp
      simpa [hlast] using hp
/-- In a well-formed tracker with a box in progress, exactly one box is in
progress. -/
lemma countInProgress_eq_one_of_inProgress (llb : LifelineBoxes)
    (hwf : wellFormedBoxes llb) (hp : llb.inProgress = true) :
    llb.countInProgress = 1 := by
  have hnil : llb.boxes ≠ [] := by
    intro hcon
    unfold LifelineBoxes.inProgress LifelineBoxes.mostRecent at hp
    rw [hcon] at hp
    simp at hp
  unfold LifelineBoxes.countInProgress
  rw [← List.dropLast_append_getLast hnil, List.filter_append]
  have h1 : llb.boxes.dropLast.filter (fun b => b.inProgress) = [] :=
    List.filter_eq_nil_iff.mpr (fun b hb => by simp [hwf b hb])
  have h2 : (llb.boxes.getLast hnil).inProgress = true := by
    unfold LifelineBoxes.inProgress LifelineBoxes.mostRecent at hp
    rw [List.getLast?_eq_getLast llb.boxes hnil] at hp
    exact hp
  rw [h1, List.filter_singleton]
  simp [h2]

/-- Opening a box is a no-op whenever one is already in progress. -/
lemma potentiallyStart_noop (c : CreatorState) (ll : Lifeline) (delta : ℚ)
    (hp : (c.activityBoxes ll).inProgress = true) :
    potentiallyStartActivityBox c ll delta = c := by
  unfold potentiallyStartActivityBox
  rw [if_pos hp]

/-- C8: invoking `potentiallyStartActivityBox` twice in a row for the same
lifeline (with no intervening close) changes nothing on the second call and
leaves exactly one in-progress extent on that lifeline's tracker; in the
decomposed design, `startToBox` likewise returns the state unchanged when a
box is already in progress. -/
theorem potentially_open_box_idempotent (c : CreatorState) (ll : Lifeline)
    (delta : ℚ) (deps : MakerDeps) (st : MakerState) (tm : ℚ)
    (s : Statement) (hwf : wellFormedBoxes (c.activityBoxes ll)) :
    potentiallyStartActivityBox (potentiallyStartActivityBox c ll delta) ll
        delta = potentiallyStartActivityBox c ll delta ∧
    ((potentiallyStartActivityBox c ll delta).activityBoxes
        ll).countInProgress = 1 ∧
    (∀ src dst rest, s.ReferencedLifelines = src :: dst :: rest →
      (st.boxes dst).hasABoxInProgress = true →
      runAction .startToBox deps st tm s = .ok (tm, st)) := by
  have hthird : ∀ src dst rest, s.ReferencedLifelines = src :: dst :: rest →
      (st.boxes dst).hasABoxInProgress = true →
      runAction .startToBox deps st tm s = .ok (tm, st) := by
    intro src dst rest hrefs hprog
    unfold runAction startToBox
    rw [hrefs]
    simp only [hprog, if_true]
  cases hp : (c.activityBoxes ll).inProgress with
  | true =>
    have h1 : potentiallyStartActivityBox c ll delta = c :=
      potentiallyStart_noop c ll delta hp
    rw [h1]
    exact ⟨h1, countInProgress_eq_one_of_inProgress _ hwf hp, hthird⟩
  | false =>
    have h1 : potentiallyStartActivityBox c ll delta =
        { c with activityBoxes := fun l =>
            if l = ll then
              (c.activityBoxes ll).startBoxAt (c.tideMark - delta)
            else c.activityBoxes l } := by
      unfold potentiallyStartActivityBox
      rw [if_neg (by simp [hp])]
    have hlook : (potentiallyStartActivityBox c ll delta).activityBoxes ll =
        (c.activityBoxes ll).startBoxAt (c.tideMark - delta) := by
      rw [h1]
      simp
    have hprog2 : ((potentiallyStartActivityBox c ll
        delta).activityBoxes ll).inProgress = true := by
      rw [hlook]
      unfold LifelineBoxes.startBoxAt LifelineBoxes.inProgress
        LifelineBoxes.mostRecent
      simp
    refine ⟨?_, ?_, hthird⟩
    · exact potentiallyStart_noop _ ll delta hprog2
    · rw [hlook]
      unfold LifelineBoxes.startBoxAt LifelineBoxes.countInProgress
      rw [List.filter_append]
      have hold : (c.activityBoxes ll).boxes.filter
          (fun b => b.inProgress) = [] :=
        List.filter_eq_nil_iff.mpr (fun b hb => by
          simp [all_closed_of_not_inProgress _ hwf hp b hb])
      rw [hold]
      simp

/-- C8 witness: opening twice on a fresh lifeline leaves one in-progress
box, and in the decomposed design `startToBox` is a no-op when the
destination lifeline already has a box in progress. -/
theorem potentially_open_box_idempotent_witness :
    wellFormedBoxes
      ((⟨0, fun _ => ⟨[]⟩, [], 1, 1⟩ : CreatorState).activityBoxes 0) ∧
    (potentiallyStartActivityBox
        (potentiallyStartActivityBox ⟨0, fun _ => ⟨[]⟩, [], 1, 1⟩ 0 2) 0 2 =
      potentiallyStartActivityBox ⟨0, fun _ => ⟨[]⟩, [], 1, 1⟩ 0 2) ∧
    (((potentiallyStartActivityBox ⟨0, fun _ => ⟨[]⟩, [], 1, 1⟩ 0
        2).activityBoxes 0).countInProgress = 1) ∧
    (runAction .startToBox ⟨1, ⟨fun _ => 1⟩, ⟨fun _ => .ok ⟨0⟩, 1⟩⟩
        (initialMakerState (fun _ => ⟨[⟨0, none⟩]⟩)) 3
        ⟨Kw.Dash, [0, 1], []⟩ =
      .ok (3, initialMakerState (fun _ => ⟨[⟨0, none⟩]⟩))) :=
  ⟨by decide,
    (potentially_open_box_idempotent ⟨0, fun _ => ⟨[]⟩, [], 1, 1⟩ 0 2
      ⟨1, ⟨fun _ => 1⟩, ⟨fun _ => .ok ⟨0⟩, 1⟩⟩
      (initialMakerState (fun _ => ⟨[⟨0, none⟩]⟩)) 3
      ⟨Kw.Dash, [0, 1], []⟩ (by decide)).1,
    (potentially_open_box_idempotent ⟨0, fun _ => ⟨[]⟩, [], 1, 1⟩ 0 2
      ⟨1, ⟨fun _ => 1⟩, ⟨fun _ => .ok ⟨0⟩, 1⟩⟩
      (initialMakerState (fun _ => ⟨[⟨0, none⟩]⟩)) 3
      ⟨Kw.Dash, [0, 1], []⟩ (by decide)).2.1,
    (potentially_open_box_idempotent ⟨0, fun _ => ⟨[]⟩, [], 1, 1⟩ 0 2
      ⟨1, ⟨fun _ => 1⟩, ⟨fun _ => .ok ⟨0⟩, 1⟩⟩
      (initialMakerState (fun _ => ⟨[⟨0, none⟩]⟩)) 3
      ⟨Kw.Dash, [0, 1], []⟩ (by decide)).2.2 0 1 [] rfl rfl⟩

/-- C5 counterexample: processing a `Self` statement registers no no-go
zone — the scan of a single `Self` statement from the initial state ends
with an empty no-go-zone list, so the claim that a Self action registers a
zone tagged with its lane paired with itself is false on this code. -/
theorem self_statement_registers_no_nogozone :
    zonesOf (ScanInteractionStatements ⟨1, ⟨fun _ => 1⟩,
        ⟨fun _ => .ok ⟨0⟩, 1⟩⟩ 0 [⟨Kw.Self, [0], ["x"]⟩]
        (initialMakerState (fun _ => NewBoxTracker))) = some [] := by
  rfl

/-- C5 (amended): the two actions that draw a horizontal element spanning
two lanes — the interaction label and the interaction line — each register a
`NoGoZone` covering exactly the vertical band `[tidemark, newTidemark)` they
occupy, tagged with the two lanes involved; the `Self` actions (`selfLabel`
and `selfLines`) register no no-go zone at all. -/
theorem horizontal_elements_register_nogozones (deps : MakerDeps)
    (st : MakerState) (tm : ℚ) (s : Statement) (tm2 : ℚ)
    (st2 : MakerState) :
    (interactionLabel deps st tm s = .ok (tm2, st2) →
      ∃ src dst rest, s.ReferencedLifelines = src :: dst :: rest ∧
        st2.noGoZones = st.noGoZones ++
          [NewNoGoZone (NewSegment tm tm2) src dst]) ∧
    (interactionLine deps st tm s = .ok (tm2, st2) →
      ∃ src dst rest, s.ReferencedLifelines = src :: dst :: rest ∧
        st2.noGoZones = st.noGoZones ++
          [NewNoGoZone (NewSegment tm tm2) src dst]) ∧
    (selfLabel deps st tm s = .ok (tm2, st2) →
      st2.noGoZones = st.noGoZones) ∧
    (selfLines deps st tm s = .ok (tm2, st2) →
      st2.noGoZones = st.noGoZones) := by
  refine ⟨?_, ?_, ?_, ?_⟩
  · intro h
    unfold interactionLabel at h
    rcases hrefs : s.ReferencedLifelines with _ | ⟨src, tl⟩
    · rw [hrefs] at h; simp at h
    · rcases tl with _ | ⟨dst, rest⟩
      · rw [hrefs] at h; simp at h
      · rw [hrefs] at h
        dsimp only at h
        cases hc : lifelineCentres deps src dst with
        | error e => rw [hc] at h; simp at h
        | ok p =>
          rw [hc] at h
          dsimp only at h
          simp only [Except.ok.injEq, Prod.mk.injEq] at h
          obtain ⟨htm, hst⟩ := h
          subst htm
          refine ⟨src, dst, rest, rfl, ?_⟩
          rw [← hst]
  · intro h
    unfold interactionLine at h
    rcases hrefs : s.ReferencedLifelines with _ | ⟨src, tl⟩
    · rw [hrefs] at h; simp at h
    · rcases tl with _ | ⟨dst, rest⟩
      · rw [hrefs] at h; simp at h
      · rw [hrefs] at h
        dsimp only at h
        cases hc : lifelineCentres deps src dst with
        | error e => rw [hc] at h; simp at h
        | ok p =>
          rw [hc] at h
          dsimp only at h
          simp only [Except.ok.injEq, Prod.mk.injEq] at h
          obtain ⟨htm, hst⟩ := h
          subst htm
          refine ⟨src, dst, rest, rfl, ?_⟩
          rw [← hst]
  · intro h
    unfold selfLabel at h
    rcases hrefs : s.ReferencedLifelines with _ | ⟨ll, tl⟩
    · rw [hrefs] at h; simp at h
    · rw [hrefs] at h
      dsimp only at h
      cases hc : deps.spacer.CentreLine ll with
      | error e => rw [hc] at h; simp at h
      | ok coords =>
        rw [hc] at h
        dsimp only at h
        simp only [Except.ok.injEq, Prod.mk.injEq] at h
        rw [← h.2]
  · intro h
    unfold selfLines at h
    rcases hrefs : s.ReferencedLifelines with _ | ⟨ll, tl⟩
    · rw [hrefs] at h; simp at h
    · rw [hrefs] at h
      dsimp only at h
      cases hc : deps.spacer.CentreLine ll with
      | error e => rw [hc] at h; simp at h
      | ok coords =>
        rw [hc] at h
        dsimp only at h
        simp only [Except.ok.injEq, Prod.mk.injEq] at h
        rw [← h.2]

/-- C5 witness: a concrete `Dash` interaction label run registers exactly
one zone spanning the band it consumed, tagged with its two lanes. -/
theorem horizontal_elements_register_nogozones_witness :
    interactionLabel ⟨1, ⟨fun _ => 1⟩, ⟨fun _ => .ok ⟨0⟩, 1⟩⟩
        (initialMakerState (fun _ => NewBoxTracker)) 0
        ⟨Kw.Dash, [0, 1], ["m"]⟩ =
      .ok (2, ⟨[NewNoGoZone (NewSegment 0 2) 0 1], fun _ => NewBoxTracker,
        [Prim.labelRow 0 0 1 Justification.CentreJ ["m"]]⟩) ∧
    (∃ src dst rest,
      (⟨Kw.Dash, [0, 1], ["m"]⟩ : Statement).ReferencedLifelines =
        src :: dst :: rest ∧
      (⟨[NewNoGoZone (NewSegment 0 2) 0 1], fun _ => NewBoxTracker,
        [Prim.labelRow 0 0 1 Justification.CentreJ ["m"]]⟩ :
          MakerState).noGoZones =
        (initialMakerState (fun _ => NewBoxTracker)).noGoZones ++
          [NewNoGoZone (NewSegment 0 2) src dst]) :=
  ⟨by norm_num [interactionLabel, lifelineCentres, labelPosn,
      initialMakerState, NewNoGoZone, NewSegment, bind, Except.bind, pure, Except.pure],
    (horizontal_elements_register_nogozones
      ⟨1, ⟨fun _ => 1⟩, ⟨fun _ => .ok ⟨0⟩, 1⟩⟩
      (initialMakerState (fun _ => NewBoxTracker)) 0
      ⟨Kw.Dash, [0, 1], ["m"]⟩ 2
      ⟨[NewNoGoZone (NewSegment 0 2) 0 1], fun _ => NewBoxTracker,
        [Prim.labelRow 0 0 1 Justification.CentreJ ["m"]]⟩).1
      (by norm_num [interactionLabel, lifelineCentres, labelPosn,
        initialMakerState, NewNoGoZone, NewSegment, bind, Except.bind, pure, Except.pure])⟩

/-- C4: the tidemark is monotonically non-decreasing — every dispatched
action of the forward pass that succeeds returns a tidemark at least as
large as the one it received (given the sizer's named scalars and the font
height are non-negative), and each finalization step of the older creator
(`endBox` and `finalizeActivityBoxes`) never moves the tidemark back. -/
theorem tidemark_monotone (deps : MakerDeps) (k : ActionKind)
    (st : MakerState) (tm : ℚ) (s : Statement) (tm2 : ℚ) (st2 : MakerState)
    (c : CreatorState) (lls : List Lifeline) (ll : Lifeline)
    (hfont : 0 ≤ deps.fontHt) (hsizer : ∀ n, 0 ≤ deps.sizer.Get n)
    (hover : 0 ≤ c.activityBoxVerticalOverlap)
    (hpad : 0 ≤ c.finalizedActivityBoxesPadB)
    (hrun : runAction k deps st tm s = .ok (tm2, st2)) :
    tm ≤ tm2 ∧ c.tideMark ≤ (finalizeActivityBoxes c lls).tideMark ∧
      c.tideMark ≤ (endBoxOld c ll).tideMark := by
  have hA := hsizer "InteractionLineTextPadB"
  have hB := hsizer "InteractionLinePadB"
  have hC := hsizer "SelfLoopHeight"
  have hD := hsizer "IndividualStoppedBoxPadB"
  have hM : (0 : ℚ) ≤ (s.LabelSegments.length : ℚ) * deps.fontHt :=
    mul_nonneg (by positivity) hfont
  refine ⟨?_, ?_, ?_⟩
  · cases k with
    | interactionLabel =>
      unfold runAction at hrun
      try dsimp only at hrun
      unfold interactionLabel at hrun
      repeat any_goals (first | split at hrun | dsimp only at hrun)
      all_goals try (exfalso; simp at hrun; done)
      try dsimp only at hrun
      simp only [Except.ok.injEq, Prod.mk.injEq] at hrun
      obtain ⟨htm, _⟩ := hrun
      rw [← htm]
      linarith
    | startToBox =>
      unfold runAction at hrun
      try dsimp only at hrun
      unfold startToBox at hrun
      repeat any_goals (first | split at hrun | dsimp only at hrun)
      all_goals try (exfalso; simp at hrun; done)
      all_goals
        simp only [Except.ok.injEq, Prod.mk.injEq] at hrun
      all_goals rw [← hrun.1]
    | startFromBox =>
      unfold runAction at hrun
      try dsimp only at hrun
      unfold startFromBox at hrun
      repeat any_goals (first | split at hrun | dsimp only at hrun)
      all_goals try (exfalso; simp at hrun; done)
      all_goals
        simp only [Except.ok.injEq, Prod.mk.injEq] at hrun
      all_goals rw [← hrun.1]
    | interactionLine =>
      unfold runAction at hrun
      try dsimp only at hrun
      unfold interactionLine at hrun
      repeat any_goals (first | split at hrun | dsimp only at hrun)
      all_goals try (exfalso; simp at hrun; done)
      try dsimp only at hrun
      simp only [Except.ok.injEq, Prod.mk.injEq] at hrun
      obtain ⟨htm, _⟩ := hrun
      rw [← htm]
      linarith
    | selfLabel =>
      unfold runAction at hrun
      try dsimp only at hrun
      unfold selfLabel at hrun
      repeat any_goals (first | split at hrun | dsimp only at hrun)
      all_goals try (exfalso; simp at hrun; done)
      try dsimp only at hrun
      simp only [Except.ok.injEq, Prod.mk.injEq] at hrun
      obtain ⟨htm, _⟩ := hrun
      rw [← htm]
      linarith
    | selfLines =>
      unfold runAction at hrun
      try dsimp only at hrun
      unfold selfLines at hrun
      repeat any_goals (first | split at hrun | dsimp only at hrun)
      all_goals try (exfalso; simp at hrun; done)
      try dsimp only at hrun
      simp only [Except.ok.injEq, Prod.mk.injEq] at hrun
      obtain ⟨htm, _⟩ := hrun
      rw [← htm]
      linarith
    | endBox =>
      unfold runAction at hrun
      try dsimp only at hrun
      unfold endBox at hrun
      repeat any_goals (first | split at hrun | dsimp only at hrun)
      all_goals try (exfalso; simp at hrun; done)
      simp only [Except.ok.injEq, Prod.mk.injEq] at hrun
      obtain ⟨htm, _⟩ := hrun
      rw [← htm]
      linarith
  · unfold finalizeActivityBoxes
    dsimp only
    linarith
  · unfold endBoxOld finalizeActivityBox
    split
    · dsimp only
      exact le_refl _
    · exact le_refl _

/-- C4 witness: a concrete successful `startToBox` action keeps the tidemark
at `3`, and the old creator's finalization steps do not decrease a tidemark
of `0`. -/
theorem tidemark_monotone_witness :
    (3 : ℚ) ≤ 3 ∧
    (⟨0, fun _ => ⟨[]⟩, [], 1, 1⟩ : CreatorState).tideMark ≤
      (finalizeActivityBoxes ⟨0, fun _ => ⟨[]⟩, [], 1, 1⟩ []).tideMark ∧
    (⟨0, fun _ => ⟨[]⟩, [], 1, 1⟩ : CreatorState).tideMark ≤
      (endBoxOld ⟨0, fun _ => ⟨[]⟩, [], 1, 1⟩ 0).tideMark :=
  tidemark_monotone ⟨1, ⟨fun _ => 1⟩, ⟨fun _ => .ok ⟨0⟩, 1⟩⟩ .startToBox
    (initialMakerState (fun _ => ⟨[⟨0, none⟩]⟩)) 3 ⟨Kw.Dash, [0, 1], []⟩ 3
    (initialMakerState (fun _ => ⟨[⟨0, none⟩]⟩)) ⟨0, fun _ => ⟨[]⟩, [], 1, 1⟩
    [] 0 (by norm_num) (fun _ => by norm_num) (by norm_num) (by norm_num)
    rfl

/-- C6: permuting the input no-go zones and the tracker's box extents before
calling `Assemble` does not change the returned gap sequence: the sort of
step 2 is total and antisymmetric, so the sorted occupied list — and with it
every later step — is determined by the input multiset alone. -/
theorem assemble_order_independent (lifeline : Lifeline)
    (top bottom minSegLen : ℚ) (zs1 zs2 : List NoGoZone)
    (t1 t2 : BoxTracker) (all : List Lifeline)
    (hz : List.Perm zs1 zs2) (hb : List.Perm t1.boxes t2.boxes) :
    Assemble lifeline top bottom minSegLen zs1 t1 all =
      Assemble lifeline top bottom minSegLen zs2 t2 all := by
  have hocc : List.Perm (occupiedFor lifeline all zs1 t1)
      (occupiedFor lifeline all zs2 t2) := by
    unfold occupiedFor applicableTo BoxTracker.extents
    exact ((hz.filter _).map _).append (hb.filterMap _)
  have hsorted : List.insertionSort segLE (occupiedFor lifeline all zs1 t1) =
      List.insertionSort segLE (occupiedFor lifeline all zs2 t2) :=
    List.eq_of_perm_of_sorted
      (((List.perm_insertionSort segLE _).trans hocc).trans
        (List.perm_insertionSort segLE _).symm)
      (List.sorted_insertionSort segLE _)
      (List.sorted_insertionSort segLE _)
  unfold Assemble candidatesFor mergedFor
  rw [hsorted]

/-- C6 witness: the zone lists of `TestItSortsTheGaps` in the two possible
orders yield identical output. -/
theorem assemble_order_independent_witness :
    List.Perm
      [NewNoGoZone (NewSegment 50 60) 0 2, NewNoGoZone (NewSegment 10 20) 0 2]
      [NewNoGoZone (NewSegment 10 20) 0 2,
        NewNoGoZone (NewSegment 50 60) 0 2] ∧
    Assemble 1 1 100 (1/10)
        [NewNoGoZone (NewSegment 50 60) 0 2,
          NewNoGoZone (NewSegment 10 20) 0 2] NewBoxTracker [0, 1, 2] =
      Assemble 1 1 100 (1/10)
        [NewNoGoZone (NewSegment 10 20) 0 2,
          NewNoGoZone (NewSegment 50 60) 0 2] NewBoxTracker [0, 1, 2] :=
  ⟨List.Perm.swap _ _ _,
    assemble_order_independent 1 1 100 (1/10) _ _ NewBoxTracker
      NewBoxTracker [0, 1, 2] (List.Perm.swap _ _ _) (List.Perm.refl _)⟩

/-! ## Interval-algebra lemmas for the Segment Assembler (claim C1) -/

lemma covers_cons {s : Segment} {l : List Segment} {x : ℚ} :
    covers (s :: l) x ↔ inSeg s x ∨ covers l x := by
  unfold covers
  constructor
  · rintro ⟨t, ht, hx⟩
    rcases List.mem_cons.mp ht with h | h
    · exact Or.inl (h ▸ hx)
    · exact Or.inr ⟨t, h, hx⟩
  · rintro (h | ⟨t, ht, hx⟩)
    · exact ⟨s, List.mem_cons_self s l, h⟩
    · exact ⟨t, List.mem_cons_of_mem s ht, hx⟩

lemma covers_nil {x : ℚ} : ¬ covers [] x := by
  rintro ⟨t, ht, _⟩
  cases ht

lemma covers_append {l1 l2 : List Segment} {x : ℚ} :
    covers (l1 ++ l2) x ↔ covers l1 x ∨ covers l2 x := by
  unfold covers
  constructor
  · rintro ⟨t, ht, hx⟩
    rcases List.mem_append.mp ht with h | h
    · exact Or.inl ⟨t, h, hx⟩
    · exact Or.inr ⟨t, h, hx⟩
  · rintro (⟨t, ht, hx⟩ | ⟨t, ht, hx⟩)
    · exact ⟨t, List.mem_append_left _ ht, hx⟩
    · exact ⟨t, List.mem_append_right _ ht, hx⟩

lemma covers_perm {l1 l2 : List Segment} (hp : List.Perm l1 l2) (x : ℚ) :
    covers l1 x ↔ covers l2 x := by
  unfold covers
  constructor
  · rintro ⟨t, ht, hx⟩; exact ⟨t, hp.mem_iff.mp ht, hx⟩
  · rintro ⟨t, ht, hx⟩; exact ⟨t, hp.mem_iff.mpr ht, hx⟩

lemma covers_filter_subset {l : List Segment} {p : Segment → Bool} {x : ℚ}
    (h : covers (l.filter p) x) : covers l x := by
  obtain ⟨t, ht, hx⟩ := h
  exact ⟨t, List.mem_of_mem_filter ht, hx⟩

/-- The lexicographic sort order implies ordering of the starts. -/
lemma pairwise_start_of_sorted {l : List Segment}
    (h : List.Sorted segLE l) :
    l.Pairwise (fun a b => a.Start ≤ b.Start) :=
  List.Pairwise.imp
    (fun hab => by
      rcases hab with h1 | ⟨h1, _⟩
      · exact le_of_lt h1
      · exact le_of_eq h1) h

/-- Merging preserves the head's start coordinate. -/
lemma mergeSegs_head_start : ∀ (l : List Segment) (x : Segment)
    (xs : List Segment), l = x :: xs →
    ∃ e rest2, mergeSegs l = Segment.mk x.Start e :: rest2 := by
  intro l
  induction l using mergeSegs.induct with
  | case1 =>
    intro x xs h
    cases h
  | case2 a =>
    intro x xs h
    injection h with h1 h2
    subst h1
    exact ⟨a.End, [], by rw [mergeSegs]⟩
  | case3 a b rest hc ih =>
    intro x xs h
    injection h with h1 h2
    subst h1
    obtain ⟨e, rest2, heq⟩ :=
      ih (Segment.mk a.Start (max a.End b.End)) rest rfl
    refine ⟨e, rest2, ?_⟩
    rw [mergeSegs, if_pos hc]
    exact heq
  | case4 a b rest hc ih =>
    intro x xs h
    injection h with h1 h2
    subst h1
    refine ⟨a.End, mergeSegs (b :: rest), ?_⟩
    rw [mergeSegs, if_neg hc]

/-- Merging neither creates nor destroys covered points (on a list whose
starts ascend). -/
lemma covers_mergeSegs : ∀ (l : List Segment),
    l.Pairwise (fun a b => a.Start ≤ b.Start) →
    ∀ x, (covers (mergeSegs l) x ↔ covers l x) := by
  intro l
  induction l using mergeSegs.induct with
  | case1 =>
    intro _ x
    rw [mergeSegs]
  | case2 a =>
    intro _ x
    rw [mergeSegs]
  | case3 a b rest hc ih =>
    intro hp x
    have hab : a.Start ≤ b.Start :=
      (List.pairwise_cons.mp hp).1 b (List.mem_cons_self b rest)
    have hp' : (Segment.mk a.Start (max a.End b.End) :: rest).Pairwise
        (fun s t => s.Start ≤ t.Start) :=
      List.pairwise_cons.mpr
        ⟨fun t ht => (List.pairwise_cons.mp hp).1 t
            (List.mem_cons_of_mem b ht),
          (List.pairwise_cons.mp (List.pairwise_cons.mp hp).2).2⟩
    rw [mergeSegs, if_pos hc, ih hp' x]
    rw [covers_cons, covers_cons, covers_cons]
    unfold inSeg
    constructor
    · rintro (⟨h1, h2⟩ | h)
      · rcases lt_or_le x a.End with h3 | h3
        · exact Or.inl ⟨h1, h3⟩
        · refine Or.inr (Or.inl ⟨le_trans hc h3, ?_⟩)
          rcases max_cases a.End b.End with ⟨hm, _⟩ | ⟨hm, _⟩
          · exact absurd (hm ▸ h2) (not_lt.mpr h3)
          · exact hm ▸ h2
      · exact Or.inr (Or.inr h)
    · rintro (⟨h1, h2⟩ | ⟨h1, h2⟩ | h)
      · exact Or.inl ⟨h1, lt_of_lt_of_le h2 (le_max_left _ _)⟩
      · exact Or.inl ⟨le_trans hab h1,
          lt_of_lt_of_le h2 (le_max_right _ _)⟩
      · exact Or.inr h
  | case4 a b rest hc ih =>
    intro hp x
    have hp' := (List.pairwise_cons.mp hp).2
    rw [mergeSegs, if_neg hc, covers_cons, covers_cons, ih hp' x,
      covers_cons]

/-- The merged intervals are pairwise separated: each ends strictly before
the next starts. -/
lemma chain_sep_mergeSegs : ∀ (l : List Segment),
    l.Pairwise (fun a b => a.Start ≤ b.Start) →
    List.Chain' (fun a b => a.End < b.Start) (mergeSegs l) := by
  intro l
  induction l using mergeSegs.induct with
  | case1 =>
    intro _
    rw [mergeSegs]
    exact List.chain'_nil
  | case2 a =>
    intro _
    rw [mergeSegs]
    exact List.chain'_singleton a
  | case3 a b rest hc ih =>
    intro hp
    have hab : a.Start ≤ b.Start :=
      (List.pairwise_cons.mp hp).1 b (List.mem_cons_self b rest)
    have hp' : (Segment.mk a.Start (max a.End b.End) :: rest).Pairwise
        (fun s t => s.Start ≤ t.Start) :=
      List.pairwise_cons.mpr
        ⟨fun t ht => (List.pairwise_cons.mp hp).1 t
            (List.mem_cons_of_mem b ht),
          (List.pairwise_cons.mp (List.pairwise_cons.mp hp).2).2⟩
    rw [mergeSegs, if_pos hc]
    exact ih hp'
  | case4 a b rest hc ih =>
    intro hp
    have hp' := (List.pairwise_cons.mp hp).2
    rw [mergeSegs, if_neg hc]
    rw [List.chain'_cons']
    constructor
    · intro y hy
      obtain ⟨e, rest2, heq⟩ := mergeSegs_head_start (b :: rest) b rest rfl
      rw [heq] at hy
      simp only [List.head?_cons, Option.mem_def, Option.some.injEq] at hy
      rw [← hy]
      exact not_le.mp hc
    · exact ih hp'

/-- Merging preserves validity bounds. -/
lemma mergeSegs_bounds : ∀ (l : List Segment) (top bottom : ℚ),
    (∀ s ∈ l, top ≤ s.Start ∧ s.Start ≤ s.End ∧ s.End ≤ bottom) →
    ∀ s ∈ mergeSegs l, top ≤ s.Start ∧ s.Start ≤ s.End ∧ s.End ≤ bottom := by
  intro l
  induction l using mergeSegs.induct with
  | case1 =>
    intro top bottom _ s hs
    rw [mergeSegs] at hs
    cases hs
  | case2 a =>
    intro top bottom hb s hs
    rw [mergeSegs] at hs
    exact hb s hs
  | case3 a b rest hc ih =>
    intro top bottom hb s hs
    rw [mergeSegs, if_pos hc] at hs
    refine ih top bottom ?_ s hs
    intro t ht
    rcases List.mem_cons.mp ht with h | h
    · subst h
      obtain ⟨ha1, ha2, ha3⟩ := hb a (List.mem_cons_self ..)
      obtain ⟨hb1, hb2, hb3⟩ := hb b
        (List.mem_cons_of_mem a (List.mem_cons_self ..))
      exact ⟨ha1, le_trans ha2 (le_max_left _ _), max_le ha3 hb3⟩
    · exact hb t (List.mem_cons_of_mem a (List.mem_cons_of_mem b h))
  | case4 a b rest hc ih =>
    intro top bottom hb s hs
    rw [mergeSegs, if_neg hc] at hs
    rcases List.mem_cons.mp hs with h | h
    · exact h ▸ hb a (List.mem_cons_self ..)
    · exact ih top bottom
        (fun t ht => hb t (List.mem_cons_of_mem a ht)) s h

/-- In a separated chain of valid intervals, the head ends no later than any
later interval starts. -/
lemma sep_head_le : ∀ (rest : List Segment) (m : Segment),
    List.Chain' (fun a b => a.End < b.Start) (m :: rest) →
    (∀ r ∈ rest, r.Start ≤ r.End) →
    ∀ r ∈ rest, m.End ≤ r.Start := by
  intro rest
  induction rest with
  | nil =>
    intro m _ _ r hr
    cases hr
  | cons r0 rs ih =>
    intro m hch hwf r hr
    have h1 : m.End < r0.Start := (List.chain'_cons.mp hch).1
    rcases List.mem_cons.mp hr with h | h
    · exact h ▸ le_of_lt h1
    · have h2 := ih r0 (List.chain'_cons.mp hch).2
        (fun t ht => hwf t (List.mem_cons_of_mem r0 ht)) r h
      have h3 : r0.Start ≤ r0.End := hwf r0 (List.mem_cons_self ..)
      linarith

/-- The gap walk of §4.3 step 4: on a separated chain of valid intervals
lying between the cursor and `bottom`, the candidate gaps tile exactly the
part of `[cursor, bottom)` that the intervals do not cover, and never
overlap them. -/
lemma gapWalk_spec : ∀ (ms : List Segment) (cursor bottom : ℚ),
    List.Chain' (fun a b => a.End < b.Start) ms →
    (∀ m ∈ ms, m.Start ≤ m.End) →
    (∀ m ∈ ms, cursor ≤ m.Start) →
    (∀ m ∈ ms, m.End ≤ bottom) →
    ∀ x,
      ((cursor ≤ x ∧ x < bottom) ↔
        (covers ms x ∨ covers (gapWalk cursor bottom ms) x)) ∧
      ¬(covers ms x ∧ covers (gapWalk cursor bottom ms) x) := by
  intro ms
  induction ms with
  | nil =>
    intro cursor bottom _ _ _ _ x
    constructor
    · rw [gapWalk]
      split
      · rw [covers_cons]
        unfold inSeg
        constructor
        · rintro ⟨h1, h2⟩
          exact Or.inr (Or.inl ⟨h1, h2⟩)
        · rintro (h | h | h)
          · exact absurd h covers_nil
          · exact h
          · exact absurd h covers_nil
      · rename_i hbc
        constructor
        · rintro ⟨h1, h2⟩
          exact absurd (lt_of_le_of_lt h1 h2) hbc
        · rintro (h | h) <;> exact absurd h covers_nil
    · rintro ⟨h, _⟩
      exact covers_nil h
  | cons m rest ih =>
    intro cursor bottom hch hwf hcur hbot x
    have hch2 : List.Chain' (fun a b => a.End < b.Start) rest :=
      (List.chain'_cons'.mp hch).2
    have hwf2 : ∀ r ∈ rest, r.Start ≤ r.End :=
      fun r hr => hwf r (List.mem_cons_of_mem m hr)
    have hcur2 : ∀ r ∈ rest, m.End ≤ r.Start := sep_head_le rest m hch hwf2
    have hbot2 : ∀ r ∈ rest, r.End ≤ bottom :=
      fun r hr => hbot r (List.mem_cons_of_mem m hr)
    have IH := ih m.End bottom hch2 hwf2 hcur2 hbot2
    have hmS : cursor ≤ m.Start := hcur m (List.mem_cons_self ..)
    have hmWf : m.Start ≤ m.End := hwf m (List.mem_cons_self ..)
    have hmB : m.End ≤ bottom := hbot m (List.mem_cons_self ..)
    have hgw : gapWalk cursor bottom (m :: rest) =
        (if m.Start > cursor then [Segment.mk cursor m.Start] else []) ++
          gapWalk m.End bottom rest := by
      rw [gapWalk]
    constructor
    · rw [hgw, covers_append, covers_cons]
      constructor
      · rintro ⟨hcx, hxb⟩
        rcases lt_or_le x m.Start with hx1 | hx1
        · refine Or.inr (Or.inl ?_)
          rw [if_pos (lt_of_le_of_lt hcx hx1)]
          exact covers_cons.mpr (Or.inl ⟨hcx, hx1⟩)
        · rcases lt_or_le x m.End with hx2 | hx2
          · exact Or.inl (Or.inl ⟨hx1, hx2⟩)
          · rcases (IH x).1.mp ⟨hx2, hxb⟩ with h | h
            · exact Or.inl (Or.inr h)
            · exact Or.inr (Or.inr h)
      · rintro ((⟨h1, h2⟩ | ⟨r, hr, hr1, hr2⟩) | (hpre | hwalk))
        · exact ⟨le_trans hmS h1, lt_of_lt_of_le h2 hmB⟩
        · exact ⟨le_trans (hcur r (List.mem_cons_of_mem m hr)) hr1,
            lt_of_lt_of_le hr2 (hbot r (List.mem_cons_of_mem m hr))⟩
        · rcases lt_or_le cursor m.Start with hgt | hgt
          · rw [if_pos hgt] at hpre
            rcases covers_cons.mp hpre with ⟨h1, h2⟩ | habs
            · exact ⟨h1, lt_of_lt_of_le h2 (le_trans hmWf hmB)⟩
            · exact absurd habs covers_nil
          · rw [if_neg (not_lt.mpr hgt)] at hpre
            exact absurd hpre covers_nil
        · have := (IH x).1.mpr (Or.inr hwalk)
          exact ⟨le_trans (le_trans hmS hmWf) this.1, this.2⟩
    · rw [hgw, covers_append]
      rintro ⟨hms, hpre | hwalk⟩
      · rcases lt_or_le cursor m.Start with hgt | hgt
        · rw [if_pos hgt] at hpre
          rcases covers_cons.mp hpre with ⟨h1, h2⟩ | habs
          · rcases covers_cons.mp hms with ⟨h3, _⟩ | ⟨r, hr, hr1, _⟩
            · exact absurd (lt_of_lt_of_le h2 h3) (lt_irrefl x)
            · exact absurd
                (lt_of_lt_of_le h2 (le_trans hmWf
                  (le_trans (hcur2 r hr) hr1)))
                (lt_irrefl x)
          · exact absurd habs covers_nil
        · rw [if_neg (not_lt.mpr hgt)] at hpre
          exact absurd hpre covers_nil
      · have hx2 := (IH x).1.mpr (Or.inr hwalk)
        rcases covers_cons.mp hms with ⟨_, h2⟩ | hrest
        · exact absurd (lt_of_lt_of_le h2 hx2.1) (lt_irrefl x)
        · exact (IH x).2 ⟨hrest, hwalk⟩

/-- C1 counterexample: for a no-go zone `[20,30)` applicable to a lifeline
whose extent is `[0,10)`, `Assemble` (with `minSegLen = 1`) returns the gap
`[0,20)`, which covers the point `15` even though `15` lies outside
`[top, bottom)` and inside no occupied interval — so the union of returned
gaps and clipped merged occupied intervals is `[0,20) ≠ [0,10)`, refuting
the claim as universally stated. -/
theorem assemble_gap_escapes_extent :
    covers (Assemble 1 0 10 1 [NewNoGoZone (NewSegment 20 30) 0 2]
      NewBoxTracker [0, 1, 2]) 15 ∧
    ¬((0 : ℚ) ≤ 15 ∧ (15 : ℚ) < 10) ∧
    ¬covers (occupiedFor 1 [0, 1, 2] [NewNoGoZone (NewSegment 20 30) 0 2]
      NewBoxTracker) 15 := by
  have hocc : occupiedFor 1 [0, 1, 2] [NewNoGoZone (NewSegment 20 30) 0 2]
      NewBoxTracker = [Segment.mk 20 30] := by
    norm_num [occupiedFor, applicableTo, zoneApplicable, BoxTracker.extents,
      NewBoxTracker, NewNoGoZone, NewSegment, List.filter]
  refine ⟨?_, by norm_num, ?_⟩
  · have heval : Assemble 1 0 10 1 [NewNoGoZone (NewSegment 20 30) 0 2]
        NewBoxTracker [0, 1, 2] = [Segment.mk 0 20] := by
      norm_num [Assemble, candidatesFor, mergedFor, occupiedFor,
        applicableTo, zoneApplicable, BoxTracker.extents, mergeSegs,
        gapWalk, List.insertionSort, List.orderedInsert, segLE,
        NewNoGoZone, NewSegment, NewBoxTracker, List.filter]
    rw [heval]
    exact ⟨Segment.mk 0 20, List.mem_cons_self .., by norm_num [inSeg]⟩
  · rintro ⟨s, hs, hx⟩
    rw [hocc] at hs
    rcases List.mem_cons.mp hs with h | h
    · subst h
      unfold inSeg at hx
      norm_num at hx
    · cases h

/-- C1 (amended): provided every occupied interval (applicable no-go zone
segments and closed box extents) is a valid segment lying inside
`[top, bottom]`, the candidate gaps and the merged occupied intervals
together tile `[top, bottom)` exactly and disjointly, the merged intervals
cover precisely the points the occupied intervals cover, the assembled
output never overlaps any occupied interval, and the output consists of
exactly the candidate gaps of length at least `minSegLen`. -/
theorem assemble_reconstructs_extent (lifeline : Lifeline)
    (top bottom minSegLen : ℚ) (zones : List NoGoZone) (boxes : BoxTracker)
    (all : List Lifeline)
    (hvalid : ∀ s ∈ occupiedFor lifeline all zones boxes,
      top ≤ s.Start ∧ s.Start ≤ s.End ∧ s.End ≤ bottom) :
    (∀ x, (top ≤ x ∧ x < bottom) ↔
      (covers (mergedFor lifeline all zones boxes) x ∨
        covers (candidatesFor lifeline top bottom zones boxes all) x)) ∧
    (∀ x, ¬(covers (mergedFor lifeline all zones boxes) x ∧
      covers (candidatesFor lifeline top bottom zones boxes all) x)) ∧
    (∀ x, covers (mergedFor lifeline all zones boxes) x ↔
      covers (occupiedFor lifeline all zones boxes) x) ∧
    (∀ x, ¬(covers (occupiedFor lifeline all zones boxes) x ∧
      covers (Assemble lifeline top bottom minSegLen zones boxes all) x)) ∧
    (∀ g, g ∈ Assemble lifeline top bottom minSegLen zones boxes all ↔
      g ∈ candidatesFor lifeline top bottom zones boxes all ∧
        minSegLen ≤ g.End - g.Start) := by
  have hperm : List.Perm
      (List.insertionSort segLE (occupiedFor lifeline all zones boxes))
      (occupiedFor lifeline all zones boxes) :=
    List.perm_insertionSort segLE _
  have hpair := pairwise_start_of_sorted
    (List.sorted_insertionSort segLE (occupiedFor lifeline all zones boxes))
  have hvalid2 : ∀ s ∈ List.insertionSort segLE
      (occupiedFor lifeline all zones boxes),
      top ≤ s.Start ∧ s.Start ≤ s.End ∧ s.End ≤ bottom :=
    fun s hs => hvalid s (hperm.subset hs)
  have hmb := mergeSegs_bounds _ top bottom hvalid2
  have hchain := chain_sep_mergeSegs _ hpair
  have hWspec := gapWalk_spec
    (mergeSegs (List.insertionSort segLE
      (occupiedFor lifeline all zones boxes))) top bottom hchain
    (fun m hm => (hmb m hm).2.1) (fun m hm => (hmb m hm).1)
    (fun m hm => (hmb m hm).2.2)
  have hcovOcc : ∀ x, covers (mergedFor lifeline all zones boxes) x ↔
      covers (occupiedFor lifeline all zones boxes) x :=
    fun x => (covers_mergeSegs _ hpair x).trans (covers_perm hperm x)
  refine ⟨fun x => (hWspec x).1, fun x => (hWspec x).2, hcovOcc, ?_, ?_⟩
  · rintro x ⟨hocc, hasm⟩
    have hcand : covers
        (candidatesFor lifeline top bottom zones boxes all) x :=
      covers_filter_subset hasm
    exact (hWspec x).2 ⟨(hcovOcc x).mpr hocc, hcand⟩
  · exact mem_Assemble_iff lifeline top bottom minSegLen zones boxes all

/-- C1 witness: the scenario of `TestWithJustOneNoGoZoneGap` (zone `[10,50)`
on extent `[1,100)`) satisfies the validity bounds; the point `5` is covered
(it lies in the gap `[1,10)`), and the point `20` is never simultaneously in
a merged interval and a candidate gap. -/
theorem assemble_reconstructs_extent_witness :
    (∀ s ∈ occupiedFor 1 [0, 1, 2] [NewNoGoZone (NewSegment 10 50) 0 2]
        NewBoxTracker,
      (1 : ℚ) ≤ s.Start ∧ s.Start ≤ s.End ∧ s.End ≤ 100) ∧
    (((1 : ℚ) ≤ 5 ∧ (5 : ℚ) < 100) ↔
      (covers (mergedFor 1 [0, 1, 2] [NewNoGoZone (NewSegment 10 50) 0 2]
          NewBoxTracker) 5 ∨
        covers (candidatesFor 1 1 100 [NewNoGoZone (NewSegment 10 50) 0 2]
          NewBoxTracker [0, 1, 2]) 5)) ∧
    ¬(covers (mergedFor 1 [0, 1, 2] [NewNoGoZone (NewSegment 10 50) 0 2]
        NewBoxTracker) 20 ∧
      covers (candidatesFor 1 1 100 [NewNoGoZone (NewSegment 10 50) 0 2]
        NewBoxTracker [0, 1, 2]) 20) := by
  have hvalid : ∀ s ∈ occupiedFor 1 [0, 1, 2]
      [NewNoGoZone (NewSegment 10 50) 0 2] NewBoxTracker,
      (1 : ℚ) ≤ s.Start ∧ s.Start ≤ s.End ∧ s.End ≤ 100 := by
    intro s hs
    have hocc : occupiedFor 1 [0, 1, 2]
        [NewNoGoZone (NewSegment 10 50) 0 2] NewBoxTracker =
        [Segment.mk 10 50] := by
      norm_num [occupiedFor, applicableTo, zoneApplicable,
        BoxTracker.extents, NewBoxTracker, NewNoGoZone, NewSegment,
        List.filter]
    rw [hocc] at hs
    rcases List.mem_cons.mp hs with h | h
    · subst h
      norm_num
    · cases h
  exact ⟨hvalid,
    (assemble_reconstructs_extent 1 1 100 (1/10)
      [NewNoGoZone (NewSegment 10 50) 0 2] NewBoxTracker [0, 1, 2]
      hvalid).1 5,
    (assemble_reconstructs_extent 1 1 100 (1/10)
      [NewNoGoZone (NewSegment 10 50) 0 2] NewBoxTracker [0, 1, 2]
      hvalid).2.1 20⟩

end Umli
